import Mathlib

set_option linter.unusedVariables false

/-! Shallow embedding of the lxst JNI codec bridge: `lxst_opus_jni.c`
(variable-frame Opus adapter) and `lxst_codec2_jni.c` (fixed-frame Codec2
adapter).  The native engines (libopus, libcodec2) and the managed runtime
are external collaborators, modelled as explicit environment records; heap
allocation is a monotone address counter, handles are context addresses,
and JNI array element views use copy semantics where the release mode
(commit = 0, JNI_ABORT) decides whether view contents propagate back to
the caller's array. -/

/-- Constant `OPUS_OK` from `opus_defines.h`. -/
def OPUS_OK : Int := 0

/-- Which caller-supplied array a JNI release call acts on. -/
inductive ArrId
  | pcmArr
  | outArr
  | encArr
  | pcmOutArr
deriving DecidableEq

/-- JNI release mode: `0` (commit: copy the view back) or `JNI_ABORT`
(discard the view without copying back). -/
inductive RelMode
  | commitRel
  | abortRel
deriving DecidableEq

/-- One `Release<T>ArrayElements` call performed during a bridge call. -/
structure RelEv where
  arr : ArrId
  mode : RelMode
deriving DecidableEq

namespace Opus

/-- Structure `OpusCtx` from `lxst_opus_jni.c`: addresses of the paired encoder and
decoder sub-resources (0 models NULL). -/
structure OpusCtx where
  enc : Nat
  dec : Nat
deriving DecidableEq

/-- The libopus engine as an external environment.  `encCreate`/`decCreate`
return the error code and the created object's address (0 = NULL);
`ctlBitrate`/`ctlComplexity` are the two `opus_encoder_ctl` requests;
`mallocFail` tells whether `malloc(sizeof(OpusCtx))` returns NULL;
`opusEncode enc pcmBuf framesPerChannel outBuf outLen` returns the result
code and the out buffer after the call; `opusDecode dec encBuf encLen
pcmBuf maxFrames` returns the result code and the pcm buffer after. -/
structure OpusExt where
  encCreate : Int → Int → Int → Int × Nat
  decCreate : Int → Int → Int × Nat
  ctlBitrate : Nat → Int → Int
  ctlComplexity : Nat → Int → Int
  mallocFail : Bool
  opusEncode : Nat → List Int → Int → List Int → Int → Int × List Int
  opusDecode : Nat → List Int → Int → List Int → Int → Int × List Int

/-- Native-resource lifecycle events of the Opus adapter. -/
inductive OpusEv
  | encCreated (p : Nat)
  | decCreated (p : Nat)
  | encDestroyed (p : Nat)
  | decDestroyed (p : Nat)
  | ctxAlloc (p : Nat)
  | ctxFreed (p : Nat)
deriving DecidableEq

/-- Bridge-visible state: the malloc address counter (fresh addresses are
nonzero and strictly increasing) and the heap of live contexts keyed by
their address, i.e. by the handle. -/
structure OpusWorld where
  next : Nat
  heap : List (Nat × OpusCtx)
deriving DecidableEq

/-- Function `nCreate`: create encoder, apply the two discarded ctl requests, create
decoder, malloc the context.  On any failure, destroy what was created and
return handle 0.  Returns (handle, world after, lifecycle events). -/
def nCreate (ext : OpusExt) (w : OpusWorld)
    (sampleRate channels application bitrate complexity : Int) :
    Nat × OpusWorld × List OpusEv :=
  let er := ext.encCreate sampleRate channels application
  if er.1 ≠ OPUS_OK ∨ er.2 = 0 then (0, w, [])
  else
    let enc := er.2
    let r1 := ext.ctlBitrate enc bitrate
    let r2 := ext.ctlComplexity enc complexity
    let dr := ext.decCreate sampleRate channels
    if dr.1 ≠ OPUS_OK ∨ dr.2 = 0 then
      (0, w, [OpusEv.encCreated enc, OpusEv.encDestroyed enc])
    else
      let dec := dr.2
      if ext.mallocFail then
        (0, w, [OpusEv.encCreated enc, OpusEv.decCreated dec,
                OpusEv.encDestroyed enc, OpusEv.decDestroyed dec])
      else
        (w.next, ⟨w.next + 1, (w.next, ⟨enc, dec⟩) :: w.heap⟩,
         [OpusEv.encCreated enc, OpusEv.decCreated dec, OpusEv.ctxAlloc w.next])

/-- Function `nDestroy`: NULL context is a no-op; otherwise destroy both
sub-resources and free the context.  A nonzero handle that is not live is
undefined behaviour in C; modelled as a no-op outside the contract. -/
def nDestroy (w : OpusWorld) (handle : Nat) : OpusWorld × List OpusEv :=
  if handle = 0 then (w, [])
  else
    match w.heap.lookup handle with
    | none => (w, [])
    | some ctx =>
        (⟨w.next, w.heap.filter (fun e => e.1 != handle)⟩,
         [OpusEv.encDestroyed ctx.enc, OpusEv.decDestroyed ctx.dec,
          OpusEv.ctxFreed handle])

/-- Observable outcome of `nEncode`: return value, both caller arrays after
the call, the capacity passed to `opus_encode` as `max_data_bytes`, and the
release calls made. -/
structure EncodeRes where
  ret : Int
  pcmAfter : List Int
  outAfter : List Int
  capPassed : Int
  rels : List RelEv
deriving DecidableEq

/-- Function `nEncode`: `outLen = GetArrayLength(out)`, views of both arrays,
`opus_encode(ctx->enc, pcmBuf, framesPerChannel, outBuf, outLen)`, release
pcm with JNI_ABORT (view discarded) and out with 0 (view written back).
A dead nonzero handle is undefined behaviour; modelled by the none arm. -/
def nEncode (ext : OpusExt) (w : OpusWorld) (handle : Nat)
    (pcm : List Int) (framesPerChannel : Int) (out : List Int) : EncodeRes :=
  let outLen : Int := out.length
  match w.heap.lookup handle with
  | none => ⟨0, pcm, out, outLen, []⟩
  | some ctx =>
      let r := ext.opusEncode ctx.enc pcm framesPerChannel out outLen
      ⟨r.1, pcm, r.2, outLen,
       [⟨ArrId.pcmArr, RelMode.abortRel⟩, ⟨ArrId.outArr, RelMode.commitRel⟩]⟩

/-- Observable outcome of `nDecode`: return value, both caller arrays after
the call, the byte length and frame capacity passed to `opus_decode`, and
the release calls made. -/
structure DecodeRes where
  ret : Int
  encodedAfter : List Int
  pcmAfter : List Int
  lenPassed : Int
  capPassed : Int
  rels : List RelEv
deriving DecidableEq

/-- Function `nDecode`: `encLen = GetArrayLength(encoded)`, views of both arrays,
`opus_decode(ctx->dec, encBuf, encLen, pcmBuf, maxFramesPerChannel, 0)`,
release encoded with JNI_ABORT and pcmOut with 0. -/
def nDecode (ext : OpusExt) (w : OpusWorld) (handle : Nat)
    (encoded : List Int) (pcmOut : List Int) (maxFramesPerChannel : Int) :
    DecodeRes :=
  let encLen : Int := encoded.length
  match w.heap.lookup handle with
  | none => ⟨0, encoded, pcmOut, encLen, maxFramesPerChannel, []⟩
  | some ctx =>
      let r := ext.opusDecode ctx.dec encoded encLen pcmOut maxFramesPerChannel
      ⟨r.1, encoded, r.2, encLen, maxFramesPerChannel,
       [⟨ArrId.encArr, RelMode.abortRel⟩, ⟨ArrId.pcmOutArr, RelMode.commitRel⟩]⟩

/-- The release event matching a creation event, relative to a trace:
everything created must be destroyed or freed in the same trace. -/
def released (tr : List OpusEv) : OpusEv → Prop
  | OpusEv.encCreated p => OpusEv.encDestroyed p ∈ tr
  | OpusEv.decCreated p => OpusEv.decDestroyed p ∈ tr
  | OpusEv.ctxAlloc p => OpusEv.ctxFreed p ∈ tr
  | _ => True

instance (tr : List OpusEv) (e : OpusEv) : Decidable (released tr e) := by
  cases e <;> simp only [released] <;> infer_instance

/-- Every sub-resource creation event in the trace has a matching release
event in the same trace. -/
def releasesAll (tr : List OpusEv) : Prop :=
  ∀ e ∈ tr, released tr e

/-- The test at line 34 of `lxst_opus_jni.c` fails the encoder creation. -/
def encFailed (ext : OpusExt) (sampleRate channels application : Int) : Prop :=
  (ext.encCreate sampleRate channels application).1 ≠ OPUS_OK ∨
    (ext.encCreate sampleRate channels application).2 = 0

/-- The test at line 40 of `lxst_opus_jni.c` fails the decoder creation. -/
def decFailed (ext : OpusExt) (sampleRate channels : Int) : Prop :=
  (ext.decCreate sampleRate channels).1 ≠ OPUS_OK ∨
    (ext.decCreate sampleRate channels).2 = 0

instance (ext : OpusExt) (sr ch app : Int) : Decidable (encFailed ext sr ch app) := by
  unfold encFailed; infer_instance

instance (ext : OpusExt) (sr ch : Int) : Decidable (decFailed ext sr ch) := by
  unfold decFailed; infer_instance

end Opus

namespace Codec2

/-- Structure `Codec2Ctx` from `lxst_codec2_jni.c`: the engine address plus the two
size fields cached at creation (`nsam` = samples per frame, `nbyte` = bytes
per encoded frame). -/
structure Codec2Ctx where
  c2 : Nat
  nsam : Int
  nbyte : Int
deriving DecidableEq

/-- The libcodec2 engine as an external environment.  `create mode` returns
the engine address (0 = NULL); `samplesPerFrame`/`bytesPerFrame` query an
engine; `mallocFail` tells whether `malloc(sizeof(Codec2Ctx))` returns
NULL.  `encodeStep c2 s pcmBuf outBuf` and `decodeStep c2 s encBuf pcmBuf`
run one engine transform from internal engine state `s`, returning the new
internal state and the buffer the engine wrote. -/
structure C2Ext where
  create : Int → Nat
  samplesPerFrame : Nat → Int
  bytesPerFrame : Nat → Int
  mallocFail : Bool
  encodeStep : Nat → Nat → List Int → List Int → Nat × List Int
  decodeStep : Nat → Nat → List Int → List Int → Nat × List Int

/-- Native-resource lifecycle events of the Codec2 adapter. -/
inductive C2Ev
  | ctxAlloc (p : Nat)
  | ctxFreed (p : Nat)
  | engCreated (p : Nat)
  | engDestroyed (p : Nat)
deriving DecidableEq

/-- Bridge-visible state: malloc address counter, heap of live contexts
keyed by handle, and the engine-internal state of each engine instance
(mutated by every encode/decode, outside the cached context fields). -/
structure C2World where
  next : Nat
  heap : List (Nat × Codec2Ctx)
  eng : Nat → Nat

/-- Function `nCreate`: malloc the context, `codec2_create(mode)` (on NULL free the
context and return 0), cache `codec2_samples_per_frame` and
`codec2_bytes_per_frame`, return the context address as the handle. -/
def nCreate (ext : C2Ext) (w : C2World) (mode : Int) :
    Nat × C2World × List C2Ev :=
  if ext.mallocFail then (0, w, [])
  else
    let ctxAddr := w.next
    let c2 := ext.create mode
    if c2 = 0 then (0, w, [C2Ev.ctxAlloc ctxAddr, C2Ev.ctxFreed ctxAddr])
    else
      let nsam := ext.samplesPerFrame c2
      let nbyte := ext.bytesPerFrame c2
      (ctxAddr, ⟨w.next + 1, (ctxAddr, ⟨c2, nsam, nbyte⟩) :: w.heap, w.eng⟩,
       [C2Ev.ctxAlloc ctxAddr, C2Ev.engCreated c2])

/-- Function `nDestroy`: NULL context is a no-op; otherwise `codec2_destroy` the
engine and free the context.  A dead nonzero handle is undefined behaviour
in C; modelled as a no-op outside the contract. -/
def nDestroy (w : C2World) (handle : Nat) : C2World × List C2Ev :=
  if handle = 0 then (w, [])
  else
    match w.heap.lookup handle with
    | none => (w, [])
    | some ctx =>
        (⟨w.next, w.heap.filter (fun e => e.1 != handle), w.eng⟩,
         [C2Ev.engDestroyed ctx.c2, C2Ev.ctxFreed handle])

/-- Function `nGetSamplesPerFrame`: `ctx_from_handle(handle)->nsam`.  The C code
performs no validity check; a non-live handle is undefined behaviour,
modelled by the none arm. -/
def nGetSamplesPerFrame (w : C2World) (handle : Nat) : Int :=
  match w.heap.lookup handle with
  | some ctx => ctx.nsam
  | none => 0

/-- Function `nGetFrameBytes`: `ctx_from_handle(handle)->nbyte`. -/
def nGetFrameBytes (w : C2World) (handle : Nat) : Int :=
  match w.heap.lookup handle with
  | some ctx => ctx.nbyte
  | none => 0

/-- Observable outcome of the fixed-frame `nEncode`/`nDecode`: return
value, both caller arrays after the call, the release calls made, and the
world after (engine-internal state advances; the heap is untouched). -/
structure C2CallRes where
  ret : Int
  inAfter : List Int
  outAfter : List Int
  rels : List RelEv
  world : C2World

/-- Function `nEncode`: views of both arrays, `codec2_encode(ctx->c2, outBuf,
pcmBuf)`, release pcm with JNI_ABORT and out with 0, return `ctx->nbyte`
unconditionally. -/
def nEncode (ext : C2Ext) (w : C2World) (handle : Nat)
    (pcm : List Int) (out : List Int) : C2CallRes :=
  match w.heap.lookup handle with
  | none => ⟨0, pcm, out, [], w⟩
  | some ctx =>
      let r := ext.encodeStep ctx.c2 (w.eng ctx.c2) pcm out
      ⟨ctx.nbyte, pcm, r.2,
       [⟨ArrId.pcmArr, RelMode.abortRel⟩, ⟨ArrId.outArr, RelMode.commitRel⟩],
       ⟨w.next, w.heap, fun a => if a = ctx.c2 then r.1 else w.eng a⟩⟩

/-- Function `nDecode`: views of both arrays, `codec2_decode(ctx->c2, pcmBuf,
encBuf)`, release encoded with JNI_ABORT and pcmOut with 0, return
`ctx->nsam` unconditionally. -/
def nDecode (ext : C2Ext) (w : C2World) (handle : Nat)
    (encoded : List Int) (pcmOut : List Int) : C2CallRes :=
  match w.heap.lookup handle with
  | none => ⟨0, encoded, pcmOut, [], w⟩
  | some ctx =>
      let r := ext.decodeStep ctx.c2 (w.eng ctx.c2) encoded pcmOut
      ⟨ctx.nsam, encoded, r.2,
       [⟨ArrId.encArr, RelMode.abortRel⟩, ⟨ArrId.pcmOutArr, RelMode.commitRel⟩],
       ⟨w.next, w.heap, fun a => if a = ctx.c2 then r.1 else w.eng a⟩⟩

end Codec2

/-- Constant `JNI_OK`. -/
def JNI_OK : Int := 0

/-- Constant `JNI_ERR`. -/
def JNI_ERR : Int := -1

/-- Constant `JNI_VERSION_1_6` = 0x00010006. -/
def JNI_VERSION_1_6 : Int := 65542

/-- The managed runtime at library-load time: result of
`GetEnv(vm, &env, JNI_VERSION_1_6)`, the address `FindClass` returns for a
class name (0 = NULL, class not found), and the result of
`RegisterNatives` on a class. -/
structure LoadEnv where
  getEnvRet : Int
  findClassAddr : String → Nat
  registerNatives : String → Int

/-- The managed-side class of the Opus adapter. -/
def opusClassName : String := "tech/torlando/lxst/codec/NativeOpus"

/-- The managed-side class of the Codec2 adapter. -/
def codec2ClassName : String := "tech/torlando/lxst/codec/NativeCodec2"

/-- Function `JNI_OnLoad` of `lxst_opus_jni.c`: JNI_ERR if `GetEnv` fails, if the
class is not found, or if `RegisterNatives` returns nonzero; otherwise
JNI_VERSION_1_6. -/
def opusOnLoad (env : LoadEnv) : Int :=
  if env.getEnvRet ≠ JNI_OK then JNI_ERR
  else
    let cls := env.findClassAddr opusClassName
    if cls = 0 then JNI_ERR
    else
      let ret := env.registerNatives opusClassName
      if ret = 0 then JNI_VERSION_1_6 else JNI_ERR

/-- Function `JNI_OnLoad` of `lxst_codec2_jni.c`: same shape against the Codec2
adapter's managed-side class. -/
def codec2OnLoad (env : LoadEnv) : Int :=
  if env.getEnvRet ≠ JNI_OK then JNI_ERR
  else
    let cls := env.findClassAddr codec2ClassName
    if cls = 0 then JNI_ERR
    else
      let ret := env.registerNatives codec2ClassName
      if ret = 0 then JNI_VERSION_1_6 else JNI_ERR

/-! ## Helper lemmas -/

/-- A heap with the entry for `handle` filtered out no longer resolves
`handle`. -/
theorem lookup_filter_ne {α : Type} (handle : Nat) (l : List (Nat × α)) :
    (l.filter (fun e => e.1 != handle)).lookup handle = none := by
  induction l with
  | nil => rfl
  | cons e t ih =>
      obtain ⟨k, v⟩ := e
      by_cases he : k = handle
      · have hb : ((k, v).1 != handle) = false := by simp [he]
        rw [List.filter_cons, hb]
        simpa using ih
      · have hb : ((k, v).1 != handle) = true := by simp [he]
        have hne : (handle == k) = false := by simp [Ne.symm he]
        rw [List.filter_cons, hb]
        simp only [if_true]
        rw [List.lookup_cons]
        simp [hne, ih]

/-- Characterization: variable-frame create when encoder creation fails. -/
theorem Opus.nCreate_encFail (ext : Opus.OpusExt) (w : Opus.OpusWorld)
    (sr ch app b c : Int) (h1 : Opus.encFailed ext sr ch app) :
    Opus.nCreate ext w sr ch app b c = (0, w, []) := by
  simp only [Opus.encFailed] at h1
  simp [Opus.nCreate, h1]

/-- Characterization: variable-frame create when decoder creation fails:
the already-created encoder is destroyed. -/
theorem Opus.nCreate_decFail (ext : Opus.OpusExt) (w : Opus.OpusWorld)
    (sr ch app b c : Int) (h1 : ¬ Opus.encFailed ext sr ch app)
    (h2 : Opus.decFailed ext sr ch) :
    Opus.nCreate ext w sr ch app b c =
      (0, w, [Opus.OpusEv.encCreated (ext.encCreate sr ch app).2,
              Opus.OpusEv.encDestroyed (ext.encCreate sr ch app).2]) := by
  simp only [Opus.encFailed] at h1
  simp only [Opus.decFailed] at h2
  simp [Opus.nCreate, h1, h2]

/-- Characterization: variable-frame create when the context allocation
fails: both sub-resources are destroyed. -/
theorem Opus.nCreate_mallocFail (ext : Opus.OpusExt) (w : Opus.OpusWorld)
    (sr ch app b c : Int) (h1 : ¬ Opus.encFailed ext sr ch app)
    (h2 : ¬ Opus.decFailed ext sr ch) (h3 : ext.mallocFail = true) :
    Opus.nCreate ext w sr ch app b c =
      (0, w, [Opus.OpusEv.encCreated (ext.encCreate sr ch app).2,
              Opus.OpusEv.decCreated (ext.decCreate sr ch).2,
              Opus.OpusEv.encDestroyed (ext.encCreate sr ch app).2,
              Opus.OpusEv.decDestroyed (ext.decCreate sr ch).2]) := by
  simp only [Opus.encFailed] at h1
  simp only [Opus.decFailed] at h2
  simp [Opus.nCreate, h1, h2, h3]

/-- Characterization: successful variable-frame create returns the fresh
context address and extends the heap. -/
theorem Opus.nCreate_ok (ext : Opus.OpusExt) (w : Opus.OpusWorld)
    (sr ch app b c : Int) (h1 : ¬ Opus.encFailed ext sr ch app)
    (h2 : ¬ Opus.decFailed ext sr ch) (h3 : ext.mallocFail = false) :
    Opus.nCreate ext w sr ch app b c =
      (w.next,
       ⟨w.next + 1,
        (w.next, ⟨(ext.encCreate sr ch app).2, (ext.decCreate sr ch).2⟩) :: w.heap⟩,
       [Opus.OpusEv.encCreated (ext.encCreate sr ch app).2,
        Opus.OpusEv.decCreated (ext.decCreate sr ch).2,
        Opus.OpusEv.ctxAlloc w.next]) := by
  simp only [Opus.encFailed] at h1
  simp only [Opus.decFailed] at h2
  simp [Opus.nCreate, h1, h2, h3]

/-- Characterization: fixed-frame create when the context allocation
fails. -/
theorem Codec2.createMallocFail (ext : Codec2.C2Ext) (w : Codec2.C2World)
    (mode : Int) (h1 : ext.mallocFail = true) :
    Codec2.nCreate ext w mode = (0, w, []) := by
  simp [Codec2.nCreate, h1]

/-- Characterization: fixed-frame create when the engine rejects the mode:
the freshly allocated context is freed again. -/
theorem Codec2.createEngFail (ext : Codec2.C2Ext) (w : Codec2.C2World)
    (mode : Int) (h1 : ext.mallocFail = false) (h2 : ext.create mode = 0) :
    Codec2.nCreate ext w mode =
      (0, w, [Codec2.C2Ev.ctxAlloc w.next, Codec2.C2Ev.ctxFreed w.next]) := by
  simp [Codec2.nCreate, h1, h2]

/-- Characterization: successful fixed-frame create caches the two engine
sizes in the fresh context and returns its address. -/
theorem Codec2.createOk (ext : Codec2.C2Ext) (w : Codec2.C2World)
    (mode : Int) (h1 : ext.mallocFail = false) (h2 : ext.create mode ≠ 0) :
    Codec2.nCreate ext w mode =
      (w.next,
       ⟨w.next + 1,
        (w.next, ⟨ext.create mode, ext.samplesPerFrame (ext.create mode),
                  ext.bytesPerFrame (ext.create mode)⟩) :: w.heap, w.eng⟩,
       [Codec2.C2Ev.ctxAlloc w.next, Codec2.C2Ev.engCreated (ext.create mode)]) := by
  simp [Codec2.nCreate, h1, h2]

/-! ## Concrete environments for witnesses -/

/-- A concrete libopus environment in which every step succeeds: the
encoder lives at address 7, the decoder at 9, the context allocation
succeeds, and both transforms return their capacity argument. -/
def extAllOk : Opus.OpusExt :=
  ⟨fun _ _ _ => (0, 7), fun _ _ => (0, 9), fun _ _ => 0, fun _ _ => 0, false,
   fun _ _ _ _ cap => (cap, []), fun _ _ _ _ cap => (cap, [])⟩

/-- A concrete libopus environment in which decoder creation fails with
error code -1. -/
def extDecFail : Opus.OpusExt :=
  ⟨fun _ _ _ => (0, 7), fun _ _ => (-1, 0), fun _ _ => 0, fun _ _ => 0, false,
   fun _ _ _ _ cap => (cap, []), fun _ _ _ _ cap => (cap, [])⟩

/-- A concrete Opus bridge world holding one live context at handle 1
wrapping the encoder at 7 and the decoder at 9. -/
def wLive : Opus.OpusWorld := ⟨2, [(1, ⟨7, 9⟩)]⟩

/-- A concrete empty Opus bridge world. -/
def wEmpty : Opus.OpusWorld := ⟨1, []⟩

/-- A concrete libcodec2 environment in which creation succeeds: the engine
lives at address 5, every engine reports 160 samples and 8 bytes per
frame, and both transforms bump the engine-internal state. -/
def c2extAllOk : Codec2.C2Ext :=
  ⟨fun _ => 5, fun _ => 160, fun _ => 8, false,
   fun _ s _ out => (s + 1, out), fun _ s _ pcm => (s + 1, pcm)⟩

/-- A concrete Codec2 bridge world holding one live context at handle 1
wrapping the engine at 5 with cached sizes 160 and 8. -/
def c2wLive : Codec2.C2World := ⟨2, [(1, ⟨5, 160, 8⟩)], fun _ => 0⟩

/-- A concrete empty Codec2 bridge world. -/
def c2wEmpty : Codec2.C2World := ⟨1, [], fun _ => 0⟩

/-! ## Claim theorems -/

/-- C1: for every variable-frame create call, if any step fails — encoder
creation, decoder creation, or context allocation — then create returns
the zero handle, leaves the bridge state unchanged (so no partial pair is
ever observable), and every native sub-resource successfully created
earlier in that same call has a matching release in the call's own event
trace. -/
theorem opus_create_failure_releases_all
    (ext : Opus.OpusExt) (w : Opus.OpusWorld) (sr ch app b c : Int)
    (hfail : Opus.encFailed ext sr ch app ∨ Opus.decFailed ext sr ch ∨
      ext.mallocFail = true) :
    (Opus.nCreate ext w sr ch app b c).1 = 0 ∧
    (Opus.nCreate ext w sr ch app b c).2.1 = w ∧
    Opus.releasesAll (Opus.nCreate ext w sr ch app b c).2.2 := by
  by_cases h1 : Opus.encFailed ext sr ch app
  · rw [Opus.nCreate_encFail ext w sr ch app b c h1]
    exact ⟨rfl, rfl, by simp [Opus.releasesAll]⟩
  · by_cases h2 : Opus.decFailed ext sr ch
    · rw [Opus.nCreate_decFail ext w sr ch app b c h1 h2]
      exact ⟨rfl, rfl, by simp [Opus.releasesAll, Opus.released]⟩
    · have h3 : ext.mallocFail = true := by
        rcases hfail with h | h | h
        · exact absurd h h1
        · exact absurd h h2
        · exact h
      rw [Opus.nCreate_mallocFail ext w sr ch app b c h1 h2 h3]
      exact ⟨rfl, rfl, by simp [Opus.releasesAll, Opus.released]⟩

/-- Witness for C1 at a concrete environment where decoder creation fails:
the handle is zero and the already-created encoder is released. -/
theorem opus_create_failure_releases_all_witness :
    (Opus.nCreate extDecFail wEmpty 48000 1 2049 24000 5).1 = 0 ∧
    (Opus.nCreate extDecFail wEmpty 48000 1 2049 24000 5).2.1 = wEmpty ∧
    Opus.releasesAll (Opus.nCreate extDecFail wEmpty 48000 1 2049 24000 5).2.2 :=
  opus_create_failure_releases_all extDecFail wEmpty 48000 1 2049 24000 5
    (Or.inr (Or.inl (by simp [Opus.decFailed, extDecFail, OPUS_OK])))

/-- C10: whether variable-frame create succeeds is independent of the
bitrate and complexity arguments: two calls agreeing on sampleRate,
channels and applicationProfile produce identical results — in particular
one returns the zero handle iff the other does — because the results of
the two post-creation tuning ctl calls are discarded. -/
theorem opus_create_ignores_tuning_args
    (ext : Opus.OpusExt) (w : Opus.OpusWorld) (sr ch app b1 c1 b2 c2 : Int) :
    Opus.nCreate ext w sr ch app b1 c1 = Opus.nCreate ext w sr ch app b2 c2 ∧
    ((Opus.nCreate ext w sr ch app b1 c1).1 = 0 ↔
      (Opus.nCreate ext w sr ch app b2 c2).1 = 0) := by
  have h : Opus.nCreate ext w sr ch app b1 c1 =
      Opus.nCreate ext w sr ch app b2 c2 := rfl
  exact ⟨h, by rw [h]⟩

/-- C2 counterexample: there is no variable-frame decode call in which the
byte length handed to the engine is less than the supplied array's
allocated capacity — the bridge always passes the array's full length, so
no smaller caller-declared size exists. -/
theorem opus_decode_len_below_capacity_impossible :
    ¬ ∃ (ext : Opus.OpusExt) (w : Opus.OpusWorld) (h : Nat)
        (encoded pcmOut : List Int) (m : Int),
      (Opus.nDecode ext w h encoded pcmOut m).lenPassed <
        (encoded.length : Int) := by
  rintro ⟨ext, w, h, encoded, pcmOut, m, hlt⟩
  have hlen : (Opus.nDecode ext w h encoded pcmOut m).lenPassed =
      (encoded.length : Int) := by
    rcases hx : w.heap.lookup h with _ | ctx <;> simp [Opus.nDecode, hx]
  rw [hlen] at hlt
  exact lt_irrefl _ hlt

/-- C2 amended: the byte length passed to the engine for `encodedIn` is
exactly the supplied array's full length (its allocated capacity; the
caller declares the actual size by sizing the array, never by a separate
smaller length), and decode forwards `maxFramesPerChannel` verbatim as the
engine's per-channel frame bound, so under the engine's output contract at
most that many frames are decoded into `pcmOut`. -/
theorem opus_decode_full_length_and_frame_bound
    (ext : Opus.OpusExt) (w : Opus.OpusWorld) (h : Nat) (ctx : Opus.OpusCtx)
    (encoded pcmOut : List Int) (m : Int)
    (hlk : w.heap.lookup h = some ctx)
    (hengine : ∀ d e l p cap, (ext.opusDecode d e l p cap).1 ≤ cap) :
    (Opus.nDecode ext w h encoded pcmOut m).lenPassed = (encoded.length : Int) ∧
    (Opus.nDecode ext w h encoded pcmOut m).capPassed = m ∧
    (Opus.nDecode ext w h encoded pcmOut m).ret ≤ m := by
  refine ⟨?_, ?_, ?_⟩ <;> simp [Opus.nDecode, hlk]
  exact hengine _ _ _ _ _

/-- Witness for the amended C2 at a concrete live handle: a 3-byte array
is passed with length 3 and the decoded frame count respects the bound. -/
theorem opus_decode_full_length_and_frame_bound_witness :
    (Opus.nDecode extAllOk wLive 1 [1, 2, 3] [0, 0, 0, 0] 2).lenPassed = 3 ∧
    (Opus.nDecode extAllOk wLive 1 [1, 2, 3] [0, 0, 0, 0] 2).capPassed = 2 ∧
    (Opus.nDecode extAllOk wLive 1 [1, 2, 3] [0, 0, 0, 0] 2).ret ≤ 2 := by
  have h := opus_decode_full_length_and_frame_bound extAllOk wLive 1 ⟨7, 9⟩
    [1, 2, 3] [0, 0, 0, 0] 2 (by rfl) (fun d e l p cap => by simp [extAllOk])
  simpa using h

/-- C6: variable-frame encode passes the output array's declared capacity
to the engine as the hard upper bound and returns the engine's result
verbatim — so under the engine's contract a non-negative count never
exceeds that capacity, and a negative engine result is surfaced unchanged;
variable-frame decode likewise surfaces the engine result verbatim, so a
negative engine result stays negative and distinct from any frame count. -/
theorem opus_transform_capacity_and_negative_passthrough
    (ext : Opus.OpusExt) (w : Opus.OpusWorld) (h : Nat) (ctx : Opus.OpusCtx)
    (pcm out encoded pcmOut : List Int) (f m : Int)
    (hlk : w.heap.lookup h = some ctx)
    (hengine : ∀ e p fr b cap, (ext.opusEncode e p fr b cap).1 ≤ cap) :
    (Opus.nEncode ext w h pcm f out).capPassed = (out.length : Int) ∧
    (Opus.nEncode ext w h pcm f out).ret =
      (ext.opusEncode ctx.enc pcm f out (out.length : Int)).1 ∧
    (Opus.nEncode ext w h pcm f out).ret ≤ (out.length : Int) ∧
    (Opus.nDecode ext w h encoded pcmOut m).ret =
      (ext.opusDecode ctx.dec encoded (encoded.length : Int) pcmOut m).1 := by
  refine ⟨?_, ?_, ?_, ?_⟩ <;> simp [Opus.nEncode, Opus.nDecode, hlk]
  exact hengine _ _ _ _ _

/-- Witness for C6 at a concrete live handle and 4-byte output array. -/
theorem opus_transform_capacity_and_negative_passthrough_witness :
    (Opus.nEncode extAllOk wLive 1 [1, 2] 2 [0, 0, 0, 0]).capPassed = 4 ∧
    (Opus.nEncode extAllOk wLive 1 [1, 2] 2 [0, 0, 0, 0]).ret =
      (extAllOk.opusEncode 7 [1, 2] 2 [0, 0, 0, 0] 4).1 ∧
    (Opus.nEncode extAllOk wLive 1 [1, 2] 2 [0, 0, 0, 0]).ret ≤ 4 ∧
    (Opus.nDecode extAllOk wLive 1 [9] [0, 0] 1).ret =
      (extAllOk.opusDecode 9 [9] 1 [0, 0] 1).1 := by
  have h := opus_transform_capacity_and_negative_passthrough extAllOk wLive 1
    ⟨7, 9⟩ [1, 2] [0, 0, 0, 0] [9] [0, 0] 2 1 (by rfl)
    (fun e p fr b cap => by simp [extAllOk])
  simpa using h

/-- C5: in every encode and decode call of both adapters, the input array
view (PCM input of encode, encoded-bytes input of decode) is released
exactly once with JNI_ABORT and the caller's input array is never written
back, while the output array view is released exactly once with the commit
mode, so the engine's writes propagate to the caller's output array. -/
theorem transform_release_modes
    (extO : Opus.OpusExt) (wO : Opus.OpusWorld) (hO : Nat) (ctxO : Opus.OpusCtx)
    (extC : Codec2.C2Ext) (wC : Codec2.C2World) (hC : Nat) (ctxC : Codec2.Codec2Ctx)
    (hlkO : wO.heap.lookup hO = some ctxO)
    (hlkC : wC.heap.lookup hC = some ctxC)
    (pcm out encoded pcmOut pcmC outC encodedC pcmOutC : List Int) (f m : Int) :
    (Opus.nEncode extO wO hO pcm f out).rels =
      [⟨ArrId.pcmArr, RelMode.abortRel⟩, ⟨ArrId.outArr, RelMode.commitRel⟩] ∧
    (Opus.nEncode extO wO hO pcm f out).pcmAfter = pcm ∧
    (Opus.nEncode extO wO hO pcm f out).outAfter =
      (extO.opusEncode ctxO.enc pcm f out (out.length : Int)).2 ∧
    (Opus.nDecode extO wO hO encoded pcmOut m).rels =
      [⟨ArrId.encArr, RelMode.abortRel⟩, ⟨ArrId.pcmOutArr, RelMode.commitRel⟩] ∧
    (Opus.nDecode extO wO hO encoded pcmOut m).encodedAfter = encoded ∧
    (Opus.nDecode extO wO hO encoded pcmOut m).pcmAfter =
      (extO.opusDecode ctxO.dec encoded (encoded.length : Int) pcmOut m).2 ∧
    (Codec2.nEncode extC wC hC pcmC outC).rels =
      [⟨ArrId.pcmArr, RelMode.abortRel⟩, ⟨ArrId.outArr, RelMode.commitRel⟩] ∧
    (Codec2.nEncode extC wC hC pcmC outC).inAfter = pcmC ∧
    (Codec2.nEncode extC wC hC pcmC outC).outAfter =
      (extC.encodeStep ctxC.c2 (wC.eng ctxC.c2) pcmC outC).2 ∧
    (Codec2.nDecode extC wC hC encodedC pcmOutC).rels =
      [⟨ArrId.encArr, RelMode.abortRel⟩, ⟨ArrId.pcmOutArr, RelMode.commitRel⟩] ∧
    (Codec2.nDecode extC wC hC encodedC pcmOutC).inAfter = encodedC ∧
    (Codec2.nDecode extC wC hC encodedC pcmOutC).outAfter =
      (extC.decodeStep ctxC.c2 (wC.eng ctxC.c2) encodedC pcmOutC).2 := by
  refine ⟨?_, ?_, ?_, ?_, ?_, ?_, ?_, ?_, ?_, ?_, ?_, ?_⟩ <;>
    simp [Opus.nEncode, Opus.nDecode, Codec2.nEncode, Codec2.nDecode,
      hlkO, hlkC]

/-- Witness for C5 at concrete live handles of both adapters. -/
theorem transform_release_modes_witness :
    (Opus.nEncode extAllOk wLive 1 [5] 1 [0, 0]).rels =
      [⟨ArrId.pcmArr, RelMode.abortRel⟩, ⟨ArrId.outArr, RelMode.commitRel⟩] ∧
    (Opus.nEncode extAllOk wLive 1 [5] 1 [0, 0]).pcmAfter = [5] ∧
    (Codec2.nDecode c2extAllOk c2wLive 1 [3] [0, 0]).rels =
      [⟨ArrId.encArr, RelMode.abortRel⟩, ⟨ArrId.pcmOutArr, RelMode.commitRel⟩] ∧
    (Codec2.nDecode c2extAllOk c2wLive 1 [3] [0, 0]).inAfter = [3] := by
  have h := transform_release_modes extAllOk wLive 1 ⟨7, 9⟩ c2extAllOk c2wLive 1
    ⟨5, 160, 8⟩ (by rfl) (by rfl) [5] [0, 0] [1] [0] [9] [0] [3] [0, 0] 1 1
  obtain ⟨a1, a2, a3, a4, a5, a6, a7, a8, a9, a10, a11, a12⟩ := h
  exact ⟨a1, a2, a10, a11⟩

/-- C3: on a live fixed-frame handle, encode returns exactly the context's
cached bytes-per-frame and decode exactly the cached samples-per-frame —
the same values `nGetFrameBytes` and `nGetSamplesPerFrame` return on that
handle — unconditionally, for every choice of caller buffers, with no
error return path. -/
theorem codec2_transform_returns_cached_sizes
    (ext : Codec2.C2Ext) (w : Codec2.C2World) (h : Nat) (ctx : Codec2.Codec2Ctx)
    (hlk : w.heap.lookup h = some ctx) :
    ∀ pcm out encoded pcmOut : List Int,
      (Codec2.nEncode ext w h pcm out).ret = Codec2.nGetFrameBytes w h ∧
      (Codec2.nEncode ext w h pcm out).ret = ctx.nbyte ∧
      (Codec2.nDecode ext w h encoded pcmOut).ret =
        Codec2.nGetSamplesPerFrame w h ∧
      (Codec2.nDecode ext w h encoded pcmOut).ret = ctx.nsam := by
  intro pcm out e p
  refine ⟨?_, ?_, ?_, ?_⟩ <;>
    simp [Codec2.nEncode, Codec2.nDecode, Codec2.nGetFrameBytes,
      Codec2.nGetSamplesPerFrame, hlk]

/-- Witness for C3 at a concrete live handle with cached sizes 160/8. -/
theorem codec2_transform_returns_cached_sizes_witness :
    (Codec2.nEncode c2extAllOk c2wLive 1 [5, 6] [0]).ret =
      Codec2.nGetFrameBytes c2wLive 1 ∧
    (Codec2.nEncode c2extAllOk c2wLive 1 [5, 6] [0]).ret = 8 ∧
    (Codec2.nDecode c2extAllOk c2wLive 1 [7] [0, 0]).ret =
      Codec2.nGetSamplesPerFrame c2wLive 1 ∧
    (Codec2.nDecode c2extAllOk c2wLive 1 [7] [0, 0]).ret = 160 :=
  codec2_transform_returns_cached_sizes c2extAllOk c2wLive 1 ⟨5, 160, 8⟩
    (by rfl) [5, 6] [0] [7] [0, 0]

/-- Heap lookup at the key just consed on. -/
theorem lookup_cons_self {α : Type} (k : Nat) (v : α) (l : List (Nat × α)) :
    ((k, v) :: l).lookup k = some v := by
  rw [List.lookup_cons]
  simp

/-- C4: a successful fixed-frame create caches the two size fields from
the engine exactly once, at creation; the getters return those
creation-time values, positive whenever the engine reports positive sizes
for live engines; and no encode or decode call writes any heap context, so
the cached values are constant across repeated queries on the handle. -/
theorem codec2_cached_sizes_fixed_at_creation
    (ext : Codec2.C2Ext) (w : Codec2.C2World) (mode : Int)
    (h : Nat) (w' : Codec2.C2World) (tr : List Codec2.C2Ev)
    (heq : Codec2.nCreate ext w mode = (h, w', tr))
    (hsucc : h ≠ 0)
    (hpos : ∀ r : Nat, r ≠ 0 →
      0 < ext.samplesPerFrame r ∧ 0 < ext.bytesPerFrame r) :
    w'.heap.lookup h =
      some ⟨ext.create mode, ext.samplesPerFrame (ext.create mode),
            ext.bytesPerFrame (ext.create mode)⟩ ∧
    Codec2.nGetSamplesPerFrame w' h = ext.samplesPerFrame (ext.create mode) ∧
    Codec2.nGetFrameBytes w' h = ext.bytesPerFrame (ext.create mode) ∧
    0 < Codec2.nGetSamplesPerFrame w' h ∧
    0 < Codec2.nGetFrameBytes w' h ∧
    (∀ (w₂ : Codec2.C2World) (h₂ : Nat) (bufIn bufOut : List Int),
      ((Codec2.nEncode ext w₂ h₂ bufIn bufOut).world).heap = w₂.heap ∧
      ((Codec2.nDecode ext w₂ h₂ bufIn bufOut).world).heap = w₂.heap) ∧
    (∀ bufIn bufOut : List Int,
      Codec2.nGetSamplesPerFrame
        ((Codec2.nEncode ext w' h bufIn bufOut).world) h =
        Codec2.nGetSamplesPerFrame w' h ∧
      Codec2.nGetFrameBytes
        ((Codec2.nDecode ext w' h bufIn bufOut).world) h =
        Codec2.nGetFrameBytes w' h) := by
  have hpres : ∀ (w₂ : Codec2.C2World) (h₂ : Nat) (bufIn bufOut : List Int),
      ((Codec2.nEncode ext w₂ h₂ bufIn bufOut).world).heap = w₂.heap ∧
      ((Codec2.nDecode ext w₂ h₂ bufIn bufOut).world).heap = w₂.heap := by
    intro w₂ h₂ bufIn bufOut
    constructor <;>
      rcases hx : w₂.heap.lookup h₂ with _ | c <;>
        simp [Codec2.nEncode, Codec2.nDecode, hx]
  cases hmf : ext.mallocFail with
  | true =>
      rw [Codec2.createMallocFail ext w mode hmf] at heq
      simp [Prod.ext_iff] at heq
      exact absurd heq.1.symm hsucc
  | false =>
      by_cases hc : ext.create mode = 0
      · rw [Codec2.createEngFail ext w mode hmf hc] at heq
        simp [Prod.ext_iff] at heq
        exact absurd heq.1.symm hsucc
      · rw [Codec2.createOk ext w mode hmf hc] at heq
        simp [Prod.ext_iff] at heq
        obtain ⟨hh, hw', htr⟩ := heq
        subst hh
        subst hw'
        have hlk : ((w.next,
            (⟨ext.create mode, ext.samplesPerFrame (ext.create mode),
              ext.bytesPerFrame (ext.create mode)⟩ : Codec2.Codec2Ctx)) ::
              w.heap).lookup w.next =
            some ⟨ext.create mode, ext.samplesPerFrame (ext.create mode),
              ext.bytesPerFrame (ext.create mode)⟩ := lookup_cons_self _ _ _
        have hsam : Codec2.nGetSamplesPerFrame
            ⟨w.next + 1,
             (w.next, ⟨ext.create mode, ext.samplesPerFrame (ext.create mode),
               ext.bytesPerFrame (ext.create mode)⟩) :: w.heap, w.eng⟩ w.next =
            ext.samplesPerFrame (ext.create mode) := by
          simp [Codec2.nGetSamplesPerFrame, hlk]
        have hbyt : Codec2.nGetFrameBytes
            ⟨w.next + 1,
             (w.next, ⟨ext.create mode, ext.samplesPerFrame (ext.create mode),
               ext.bytesPerFrame (ext.create mode)⟩) :: w.heap, w.eng⟩ w.next =
            ext.bytesPerFrame (ext.create mode) := by
          simp [Codec2.nGetFrameBytes, hlk]
        have hget : ∀ (w₁ w₂ : Codec2.C2World) (hh : Nat),
            w₁.heap = w₂.heap →
            Codec2.nGetSamplesPerFrame w₁ hh = Codec2.nGetSamplesPerFrame w₂ hh ∧
            Codec2.nGetFrameBytes w₁ hh = Codec2.nGetFrameBytes w₂ hh := by
          intro w₁ w₂ hh he
          simp [Codec2.nGetSamplesPerFrame, Codec2.nGetFrameBytes, he]
        refine ⟨hlk, hsam, hbyt, ?_, ?_, hpres, ?_⟩
        · rw [hsam]; exact (hpos _ hc).1
        · rw [hbyt]; exact (hpos _ hc).2
        · intro bufIn bufOut
          exact ⟨(hget _ _ _ ((hpres _ _ bufIn bufOut).1)).1,
                 (hget _ _ _ ((hpres _ _ bufIn bufOut).2)).2⟩

/-- Witness for C4: a concrete successful create at mode 0 caches 160/8
and the getters return them, positive, unchanged by a transform call. -/
theorem codec2_cached_sizes_fixed_at_creation_witness :
    Codec2.nGetSamplesPerFrame (Codec2.nCreate c2extAllOk c2wEmpty 0).2.1 1 =
      160 ∧
    Codec2.nGetFrameBytes (Codec2.nCreate c2extAllOk c2wEmpty 0).2.1 1 = 8 ∧
    0 < Codec2.nGetSamplesPerFrame (Codec2.nCreate c2extAllOk c2wEmpty 0).2.1 1 := by
  have h := codec2_cached_sizes_fixed_at_creation c2extAllOk c2wEmpty 0 1
    (Codec2.nCreate c2extAllOk c2wEmpty 0).2.1
    (Codec2.nCreate c2extAllOk c2wEmpty 0).2.2 (by rfl) (by decide)
    (fun r hr => by constructor <;> norm_num [c2extAllOk])
  refine ⟨?_, ?_, ?_⟩
  · have := h.2.1
    simpa [c2extAllOk] using this
  · have := h.2.2.1
    simpa [c2extAllOk] using this
  · have := h.2.2.2.1
    simpa [c2extAllOk] using this

/-- C7: destroy with the zero handle is a no-op for both adapters — no
native release, no free, no state change — while destroy on a live
non-zero handle releases the wrapped native resource(s) and then frees the
context, leaving the handle dead. -/
theorem destroy_zero_noop_live_frees
    (wO : Opus.OpusWorld) (hO : Nat) (ctxO : Opus.OpusCtx)
    (wC : Codec2.C2World) (hC : Nat) (ctxC : Codec2.Codec2Ctx)
    (hO0 : hO ≠ 0) (hlkO : wO.heap.lookup hO = some ctxO)
    (hC0 : hC ≠ 0) (hlkC : wC.heap.lookup hC = some ctxC) :
    Opus.nDestroy wO 0 = (wO, []) ∧
    Codec2.nDestroy wC 0 = (wC, []) ∧
    (Opus.nDestroy wO hO).2 =
      [Opus.OpusEv.encDestroyed ctxO.enc, Opus.OpusEv.decDestroyed ctxO.dec,
       Opus.OpusEv.ctxFreed hO] ∧
    (Opus.nDestroy wO hO).1.heap.lookup hO = none ∧
    (Codec2.nDestroy wC hC).2 =
      [Codec2.C2Ev.engDestroyed ctxC.c2, Codec2.C2Ev.ctxFreed hC] ∧
    (Codec2.nDestroy wC hC).1.heap.lookup hC = none := by
  refine ⟨?_, ?_, ?_, ?_, ?_, ?_⟩
  · simp [Opus.nDestroy]
  · simp [Codec2.nDestroy]
  · simp [Opus.nDestroy, hO0, hlkO]
  · simp [Opus.nDestroy, hO0, hlkO, lookup_filter_ne]
  · simp [Codec2.nDestroy, hC0, hlkC]
  · simp [Codec2.nDestroy, hC0, hlkC, lookup_filter_ne]

/-- Witness for C7 at the concrete live worlds of both adapters. -/
theorem destroy_zero_noop_live_frees_witness :
    Opus.nDestroy wLive 0 = (wLive, []) ∧
    (Opus.nDestroy wLive 1).2 =
      [Opus.OpusEv.encDestroyed 7, Opus.OpusEv.decDestroyed 9,
       Opus.OpusEv.ctxFreed 1] ∧
    (Codec2.nDestroy c2wLive 1).2 =
      [Codec2.C2Ev.engDestroyed 5, Codec2.C2Ev.ctxFreed 1] := by
  have h := destroy_zero_noop_live_frees wLive 1 ⟨7, 9⟩ c2wLive 1 ⟨5, 160, 8⟩
    (by decide) (by rfl) (by decide) (by rfl)
  exact ⟨h.1, h.2.2.1, h.2.2.2.2.1⟩

/-- Under a positive allocation counter, variable-frame create returns the
zero handle exactly when one of the three steps fails. -/
theorem Opus.nCreate_zero_iff (ext : Opus.OpusExt) (w : Opus.OpusWorld)
    (sr ch app b c : Int) (hw : 0 < w.next) :
    ((Opus.nCreate ext w sr ch app b c).1 = 0 ↔
      (Opus.encFailed ext sr ch app ∨ Opus.decFailed ext sr ch ∨
        ext.mallocFail = true)) := by
  by_cases h1 : Opus.encFailed ext sr ch app
  · rw [Opus.nCreate_encFail ext w sr ch app b c h1]
    simp [h1]
  · by_cases h2 : Opus.decFailed ext sr ch
    · rw [Opus.nCreate_decFail ext w sr ch app b c h1 h2]
      simp [h2]
    · cases h3 : ext.mallocFail with
      | true =>
          rw [Opus.nCreate_mallocFail ext w sr ch app b c h1 h2 h3]
          simp
      | false =>
          rw [Opus.nCreate_ok ext w sr ch app b c h1 h2 h3]
          simp [h1, h2]
          omega

/-- A successful variable-frame create returns the fresh address and
advances the allocator by one, consing the new context onto the heap. -/
theorem Opus.nCreate_success_parts (ext : Opus.OpusExt) (w : Opus.OpusWorld)
    (sr ch app b c : Int)
    (hne : (Opus.nCreate ext w sr ch app b c).1 ≠ 0) :
    (Opus.nCreate ext w sr ch app b c).1 = w.next ∧
    (Opus.nCreate ext w sr ch app b c).2.1.next = w.next + 1 ∧
    (Opus.nCreate ext w sr ch app b c).2.1.heap =
      (w.next, ⟨(ext.encCreate sr ch app).2, (ext.decCreate sr ch).2⟩) ::
        w.heap := by
  by_cases h1 : Opus.encFailed ext sr ch app
  · rw [Opus.nCreate_encFail ext w sr ch app b c h1] at hne
    simp at hne
  · by_cases h2 : Opus.decFailed ext sr ch
    · rw [Opus.nCreate_decFail ext w sr ch app b c h1 h2] at hne
      simp at hne
    · cases h3 : ext.mallocFail with
      | true =>
          rw [Opus.nCreate_mallocFail ext w sr ch app b c h1 h2 h3] at hne
          simp at hne
      | false =>
          rw [Opus.nCreate_ok ext w sr ch app b c h1 h2 h3]
          exact ⟨rfl, rfl, rfl⟩

/-- Under a positive allocation counter, fixed-frame create returns the
zero handle exactly when the allocation or the engine creation fails. -/
theorem Codec2.createZeroIff (ext : Codec2.C2Ext) (w : Codec2.C2World)
    (mode : Int) (hw : 0 < w.next) :
    ((Codec2.nCreate ext w mode).1 = 0 ↔
      (ext.mallocFail = true ∨ ext.create mode = 0)) := by
  cases h1 : ext.mallocFail with
  | true =>
      rw [Codec2.createMallocFail ext w mode h1]
      simp
  | false =>
      by_cases h2 : ext.create mode = 0
      · rw [Codec2.createEngFail ext w mode h1 h2]
        simp [h2]
      · rw [Codec2.createOk ext w mode h1 h2]
        simp [h2]
        omega

/-- A successful fixed-frame create returns the fresh address and advances
the allocator by one, consing the new context onto the heap. -/
theorem Codec2.createSuccessParts (ext : Codec2.C2Ext) (w : Codec2.C2World)
    (mode : Int) (hne : (Codec2.nCreate ext w mode).1 ≠ 0) :
    (Codec2.nCreate ext w mode).1 = w.next ∧
    (Codec2.nCreate ext w mode).2.1.next = w.next + 1 ∧
    (Codec2.nCreate ext w mode).2.1.heap =
      (w.next, ⟨ext.create mode, ext.samplesPerFrame (ext.create mode),
                ext.bytesPerFrame (ext.create mode)⟩) :: w.heap := by
  cases h1 : ext.mallocFail with
  | true =>
      rw [Codec2.createMallocFail ext w mode h1] at hne
      simp at hne
  | false =>
      by_cases h2 : ext.create mode = 0
      · rw [Codec2.createEngFail ext w mode h1 h2] at hne
        simp at hne
      · rw [Codec2.createOk ext w mode h1 h2]
        exact ⟨rfl, rfl, rfl⟩

/-- C8: for both adapters, a successful create returns a non-zero handle,
zero is returned exactly on creation failure, and two successive
successful creates without an intervening destroy return distinct handles,
each still resolving to its own context in the final heap — no two live
handles alias one context. -/
theorem handles_nonzero_and_distinct
    (ext : Opus.OpusExt) (w : Opus.OpusWorld)
    (sr ch app b c sr' ch' app' b' c' : Int)
    (extC : Codec2.C2Ext) (wC : Codec2.C2World) (m1 m2 : Int)
    (hw : 0 < w.next) (hwC : 0 < wC.next) :
    ((Opus.nCreate ext w sr ch app b c).1 = 0 ↔
      (Opus.encFailed ext sr ch app ∨ Opus.decFailed ext sr ch ∨
        ext.mallocFail = true)) ∧
    ((Codec2.nCreate extC wC m1).1 = 0 ↔
      (extC.mallocFail = true ∨ extC.create m1 = 0)) ∧
    ((Opus.nCreate ext w sr ch app b c).1 ≠ 0 →
      (Opus.nCreate ext (Opus.nCreate ext w sr ch app b c).2.1
        sr' ch' app' b' c').1 ≠ 0 →
      ((Opus.nCreate ext w sr ch app b c).1 ≠
        (Opus.nCreate ext (Opus.nCreate ext w sr ch app b c).2.1
          sr' ch' app' b' c').1 ∧
       ((Opus.nCreate ext (Opus.nCreate ext w sr ch app b c).2.1
          sr' ch' app' b' c').2.1.heap.lookup
            (Opus.nCreate ext w sr ch app b c).1).isSome = true ∧
       ((Opus.nCreate ext (Opus.nCreate ext w sr ch app b c).2.1
          sr' ch' app' b' c').2.1.heap.lookup
            (Opus.nCreate ext (Opus.nCreate ext w sr ch app b c).2.1
              sr' ch' app' b' c').1).isSome = true)) ∧
    ((Codec2.nCreate extC wC m1).1 ≠ 0 →
      (Codec2.nCreate extC (Codec2.nCreate extC wC m1).2.1 m2).1 ≠ 0 →
      ((Codec2.nCreate extC wC m1).1 ≠
        (Codec2.nCreate extC (Codec2.nCreate extC wC m1).2.1 m2).1 ∧
       ((Codec2.nCreate extC (Codec2.nCreate extC wC m1).2.1 m2).2.1.heap.lookup
          (Codec2.nCreate extC wC m1).1).isSome = true ∧
       ((Codec2.nCreate extC (Codec2.nCreate extC wC m1).2.1 m2).2.1.heap.lookup
          (Codec2.nCreate extC (Codec2.nCreate extC wC m1).2.1 m2).1).isSome =
            true)) := by
  refine ⟨Opus.nCreate_zero_iff ext w sr ch app b c hw,
          Codec2.createZeroIff extC wC m1 hwC, ?_, ?_⟩
  · intro hs1 hs2
    obtain ⟨e1, e2, e3⟩ := Opus.nCreate_success_parts ext w sr ch app b c hs1
    obtain ⟨f1, f2, f3⟩ := Opus.nCreate_success_parts ext
      (Opus.nCreate ext w sr ch app b c).2.1 sr' ch' app' b' c' hs2
    refine ⟨?_, ?_, ?_⟩
    · rw [e1, f1, e2]
      omega
    · rw [f3, e1, e2, e3]
      rw [List.lookup_cons]
      have hne : (w.next == w.next + 1) = false := by simp
      rw [hne]
      simp [lookup_cons_self]
    · rw [f3, f1]
      rw [lookup_cons_self]
      rfl
  · intro hs1 hs2
    obtain ⟨e1, e2, e3⟩ := Codec2.createSuccessParts extC wC m1 hs1
    obtain ⟨f1, f2, f3⟩ := Codec2.createSuccessParts extC
      (Codec2.nCreate extC wC m1).2.1 m2 hs2
    refine ⟨?_, ?_, ?_⟩
    · rw [e1, f1, e2]
      omega
    · rw [f3, e1, e2, e3]
      rw [List.lookup_cons]
      have hne : (wC.next == wC.next + 1) = false := by simp
      rw [hne]
      simp [lookup_cons_self]
    · rw [f3, f1]
      rw [lookup_cons_self]
      rfl

/-- Witness for C8: two successive successful creates of each adapter from
concrete empty worlds yield distinct non-zero handles. -/
theorem handles_nonzero_and_distinct_witness :
    (Opus.nCreate extAllOk wEmpty 48000 1 2049 24000 5).1 ≠
      (Opus.nCreate extAllOk (Opus.nCreate extAllOk wEmpty 48000 1 2049 24000 5).2.1
        16000 2 2048 16000 3).1 ∧
    (Codec2.nCreate c2extAllOk c2wEmpty 0).1 ≠ 0 ∧
    (Codec2.nCreate c2extAllOk c2wEmpty 0).1 ≠
      (Codec2.nCreate c2extAllOk (Codec2.nCreate c2extAllOk c2wEmpty 0).2.1 1).1 := by
  have h := handles_nonzero_and_distinct extAllOk wEmpty 48000 1 2049 24000 5
    16000 2 2048 16000 3 c2extAllOk c2wEmpty 0 1 (by decide) (by decide)
  refine ⟨(h.2.2.1 (by decide) (by decide)).1, ?_,
          (h.2.2.2 (by decide) (by decide)).1⟩
  intro h0
  rcases h.2.1.mp h0 with hh | hh
  · exact absurd hh (by decide)
  · exact absurd hh (by decide)

/-- C9 counterexample: at a concrete load environment whose `GetEnv` call
fails (returns -1) while the class is found (address 1) and registration
succeeds (returns 0), both load entry points return the error value even
though neither of the two failure causes named by the claim holds — so
"returns the success version otherwise" is false as stated. -/
theorem onload_error_without_named_failure :
    opusOnLoad ⟨-1, fun _ => 1, fun _ => 0⟩ = JNI_ERR ∧
    codec2OnLoad ⟨-1, fun _ => 1, fun _ => 0⟩ = JNI_ERR ∧
    (⟨-1, fun _ => 1, fun _ => 0⟩ : LoadEnv).findClassAddr opusClassName ≠ 0 ∧
    (⟨-1, fun _ => 1, fun _ => 0⟩ : LoadEnv).registerNatives opusClassName = 0 ∧
    (⟨-1, fun _ => 1, fun _ => 0⟩ : LoadEnv).findClassAddr codec2ClassName ≠ 0 ∧
    (⟨-1, fun _ => 1, fun _ => 0⟩ : LoadEnv).registerNatives codec2ClassName =
      0 ∧
    JNI_ERR ≠ JNI_VERSION_1_6 := by
  refine ⟨?_, ?_, ?_, ?_, ?_, ?_, ?_⟩ <;>
    simp [opusOnLoad, codec2OnLoad, JNI_OK, JNI_ERR, JNI_VERSION_1_6]

/-- C9 amended: for both adapters the load entry point returns only the
success version or the error value, and it returns the success version
exactly when the environment-version query succeeds, the managed-side
class is found, and native-method registration returns 0 — so classLookup
or registration failure (and additionally a failed environment query) is
always surfaced as a load error, never silently ignored. -/
theorem onload_success_iff (env : LoadEnv) :
    (opusOnLoad env = JNI_VERSION_1_6 ∨ opusOnLoad env = JNI_ERR) ∧
    (opusOnLoad env = JNI_VERSION_1_6 ↔
      (env.getEnvRet = JNI_OK ∧ env.findClassAddr opusClassName ≠ 0 ∧
       env.registerNatives opusClassName = 0)) ∧
    (codec2OnLoad env = JNI_VERSION_1_6 ∨ codec2OnLoad env = JNI_ERR) ∧
    (codec2OnLoad env = JNI_VERSION_1_6 ↔
      (env.getEnvRet = JNI_OK ∧ env.findClassAddr codec2ClassName ≠ 0 ∧
       env.registerNatives codec2ClassName = 0)) := by
  unfold opusOnLoad codec2OnLoad
  by_cases h1 : env.getEnvRet = JNI_OK
  · by_cases h2 : env.findClassAddr opusClassName = 0 <;>
    by_cases h3 : env.registerNatives opusClassName = 0 <;>
    by_cases h4 : env.findClassAddr codec2ClassName = 0 <;>
    by_cases h5 : env.registerNatives codec2ClassName = 0 <;>
      simp [h1, h2, h3, h4, h5, JNI_ERR, JNI_VERSION_1_6]
  · simp [h1, JNI_ERR, JNI_VERSION_1_6]
